import Mathlib

/-!
Verification of the Custom-PDF-Builder page editor core against its
natural-language specification.  The definitions below are a shallow
embedding of the TypeScript source:

* `src/src/utils/pagePreviewUtils.ts` (decoration id predicates),
* `src/src/utils/pageUtils.ts` (persisted snapshots, history, delete/copy,
  image crop math),
* `src/unnamed/part_007` (BOM table composer: wrapping, chunking, page
  layout),
* `src/src/utils/exportUtils.ts` / `src/unnamed/part_011` (PDF export
  text-overlay pass).

Numbers that are floating point in JavaScript are modelled as `ℚ`
(the values the claims exercise are exact decimals, so rational
arithmetic coincides with the source's float arithmetic there); machine
strings are `String`; `undefined`-able fields are `Option`.
-/

namespace Closet

/-! ## Decoration ids (pagePreviewUtils.ts, lines 180-215) -/

/-- `HEADER_ID` constant. -/
def HEADER_ID : String := "fixed-header"

/-- `FOOTER_ID` constant. -/
def FOOTER_ID : String := "fixed-footer"

/-- `STAMP_ID` constant. -/
def STAMP_ID : String := "fixed-stamp"

/-- `DATE_ID` constant. -/
def DATE_ID : String := "fixed-date"

/-- `PAGE_NUMBER_ID` constant. -/
def PAGE_NUMBER_ID : String := "fixed-page-number"

/-- `CONTACT_INFO_ID` constant. -/
def CONTACT_INFO_ID : String := "designer-contact-info"

/-- `LOCKED_DECORATION_IDS` set (modelled as a list; membership only). -/
def LOCKED_DECORATION_IDS : List String :=
  [HEADER_ID, FOOTER_ID, STAMP_ID, DATE_ID, PAGE_NUMBER_ID]

/-- `ALL_DECORATION_IDS` set. -/
def ALL_DECORATION_IDS : List String :=
  [HEADER_ID, FOOTER_ID, STAMP_ID, DATE_ID, PAGE_NUMBER_ID, CONTACT_INFO_ID]

/-- `isLockedDecorationId(id)`: `id` present and in `LOCKED_DECORATION_IDS`. -/
def isLockedDecorationId : Option String → Bool
  | none => false
  | some id => LOCKED_DECORATION_IDS.contains id

/-- `isDecorationId(id)`: `id` present and in `ALL_DECORATION_IDS`. -/
def isDecorationId : Option String → Bool
  | none => false
  | some id => ALL_DECORATION_IDS.contains id

/-! ## Scene graph objects (pageUtils.ts)

For the persistence / delete / copy claims only the metadata id of an
object matters; the embedding keeps exactly that field.  `data?.id` being
absent (no `data` bag, or no `id` key) is `none`. -/

/-- A scene-graph object as seen by the persistence and selection
predicates: its `data.id` metadata tag. -/
structure SceneObject where
  dataId : Option String
deriving DecidableEq, Repr

/-- `isBomObject(obj)` (pageUtils.ts line 24): the metadata id is a string
starting with `bom-` (`id.startsWith`, modelled on the character lists so
it evaluates inside the kernel). -/
def isBomObject (obj : SceneObject) : Bool :=
  match obj.dataId with
  | none => false
  | some id => List.isPrefixOf "bom-".data id.data

/-- `buildPersistedJson` (pageUtils.ts lines 667-677): the serialized
object list keeps exactly the objects whose metadata id is not a locked
decoration id.  (`normalizeTextStylesForSerialization` only rewrites text
style bags and neither adds nor removes objects, so it is not modelled.) -/
def buildPersistedJson (objects : List SceneObject) : List SceneObject :=
  objects.filter (fun obj => !isLockedDecorationId obj.dataId)

/-! ## History (pageUtils.ts lines 679-700, 1878-1910)

The module-level mutable history state.  `pushHistory` is modelled for
the live-page case (its early returns on `isRestoring`, `isDisposed` and
a missing `currentPageId` leave the state untouched, which is the same
as not calling it).  Snapshots are the JSON strings the source stores. -/

/-- The controller's history state: the bounded snapshot list, the
current index, and the `hasPageChanges` flag. -/
structure HistoryState where
  history : List String
  historyIndex : Nat
  hasPageChanges : Bool
deriving DecidableEq, Repr

/-- `seedHistoryFromCanvas` (lines 679-685) with the seed snapshot given:
history becomes the singleton list, index 0, no pending changes. -/
def seedHistoryFromCanvas (json : String) : HistoryState :=
  { history := [json], historyIndex := 0, hasPageChanges := false }

/-- `pushHistory` (lines 687-700) with the new snapshot string given:
if the snapshot at the current index equals the new one, nothing happens;
otherwise entries above the index are truncated, the snapshot is appended,
the list is capped to its last 50 entries (`slice(-50)`), and the index
moves to the new last entry. -/
def pushHistory (s : HistoryState) (json : String) : HistoryState :=
  if s.history.get? s.historyIndex = some json then s
  else
    let list := s.history.take (s.historyIndex + 1) ++ [json]
    let capped := list.drop (list.length - 50)
    { history := capped
      historyIndex := capped.length - 1
      hasPageChanges := true }

/-- `undo` (lines 1878-1894): no-op unless `hasPageChanges` and the index
is positive; otherwise the index moves down one and, on reaching 0,
`hasPageChanges` is cleared.  (The graph reload from the snapshot at the
new index is the value `s.history.get? s.historyIndex`.) -/
def undo (s : HistoryState) : HistoryState :=
  if !s.hasPageChanges then s
  else if s.historyIndex = 0 then s
  else
    let i := s.historyIndex - 1
    { s with historyIndex := i
             hasPageChanges := if i = 0 then false else s.hasPageChanges }

/-- `redo` (lines 1895-1910): no-op at the newest entry; otherwise the
index moves up one and `hasPageChanges := historyIndex > 0`. -/
def redo (s : HistoryState) : HistoryState :=
  if s.history.length - 1 ≤ s.historyIndex then s
  else
    { s with historyIndex := s.historyIndex + 1
             hasPageChanges := decide (0 < s.historyIndex + 1) }

/-- A committed-mutation/undo sequence applied to history state: each
committed mutation ends in one `pushHistory` with that mutation's
snapshot; `undo` may be interleaved. -/
inductive HistoryOp where
  | push (json : String)
  | undoOp
deriving DecidableEq, Repr

/-- Apply one history operation. -/
def applyHistoryOp (s : HistoryState) : HistoryOp → HistoryState
  | .push json => pushHistory s json
  | .undoOp => undo s

/-- Apply a sequence of history operations. -/
def applyHistoryOps (s : HistoryState) (ops : List HistoryOp) : HistoryState :=
  ops.foldl applyHistoryOp s

/-! ## Delete / copy on selections (pageUtils.ts lines 1220-1244, 1846-1854) -/

/-- `removeActiveObjects` (lines 1220-1244).  Arguments mirror
`canvas.getActiveObjects()` (the multi-selection list) and
`canvas.getActiveObject()` (the single active object).  Returns the new
object list and whether `pushHistory` was invoked. -/
def removeActiveObjects (objects : List SceneObject)
    (activeObjects : List SceneObject) (activeObject : Option SceneObject) :
    List SceneObject × Bool :=
  if activeObjects.length > 0 then
    let removable := activeObjects.filter
      (fun obj => !isDecorationId obj.dataId && !isBomObject obj)
    (objects.filter (fun obj => !removable.contains obj), !removable.isEmpty)
  else
    match activeObject with
    | some obj =>
        if !isDecorationId obj.dataId && !isBomObject obj then
          (objects.filter (fun o => o ≠ obj), true)
        else (objects, false)
    | none => (objects, false)

/-- `copy` (lines 1846-1854): returns the new clipboard value.  The object
list and history are never touched by `copy` in the source; the return
type records that only the clipboard can change. -/
def copy (clipboard : Option SceneObject) (active : Option SceneObject) :
    Option SceneObject :=
  match active with
  | none => clipboard
  | some obj =>
      if isDecorationId obj.dataId then clipboard
      else if isBomObject obj then clipboard
      else some obj

/-! ## BOM table composer (src/unnamed/part_007)

Constants from lines 40-48. -/

/-- `PAGE_WIDTH` (794). -/
def PAGE_WIDTH : Nat := 794

/-- `PAGE_HEIGHT` (1123). -/
def PAGE_HEIGHT : Nat := 1123

/-- `TABLE_TOP` (140). -/
def TABLE_TOP : Nat := 140

/-- `TABLE_BOTTOM` (120). -/
def TABLE_BOTTOM : Nat := 120

/-- `HEADER_HEIGHT` (16). -/
def HEADER_HEIGHT : Nat := 16

/-- `COL_WIDTHS` (150/330/90/50/80). -/
def COL_WIDTHS : List Nat := [150, 330, 90, 50, 80]

/-- `TABLE_WIDTH`: sum of the column widths. -/
def TABLE_WIDTH : Nat := COL_WIDTHS.foldl (· + ·) 0

/-- `TABLE_X`: horizontal centering offset. -/
def TABLE_X : Nat := (PAGE_WIDTH - TABLE_WIDTH) / 2

/-- `FONT_SIZE` (11). -/
def FONT_SIZE : Nat := 11

/-- One BOM table row (`TableRow` in types.ts); `undefined`-able fields
use `Option`. -/
structure TableRow where
  part : String
  description : String
  unitPrice : Option String
  qty : Option String
  total : Option String
  isBold : Bool
deriving DecidableEq, Repr

/-- The maximal runs of non-whitespace characters of a character list
(the current partially read word is threaded reversed). -/
def wordsAux : List Char → List Char → List (List Char)
  | [], current => if current = [] then [] else [current.reverse]
  | c :: rest, current =>
      if c.isWhitespace then
        if current = [] then wordsAux rest []
        else current.reverse :: wordsAux rest []
      else wordsAux rest (c :: current)

/-- `text.split(/\s+/).filter(Boolean)` (line 51): the whitespace-split
word list with empty segments dropped, modelled directly on the
character list (so it evaluates inside the kernel). -/
def splitWords (s : String) : List String :=
  (wordsAux s.data []).map String.mk

/-- The fold step of `wrapTextByChars` (lines 55-63): try to extend the
current line by one word; start a new line when the joined length would
exceed `maxChars`. -/
def wrapStep (maxChars : Nat) (acc : List String × String) (word : String) :
    List String × String :=
  if (acc.2 ++ " " ++ word).length > maxChars then (acc.1 ++ [acc.2], word)
  else (acc.1, acc.2 ++ " " ++ word)

/-- `wrapTextByChars(text, maxChars)` (lines 50-66): split on whitespace,
drop empty words, then greedily pack words into lines.  The identical
function also appears as `wrapBomTextByChars` (lines 227-243). -/
def wrapTextByChars (text : String) (maxChars : Nat) : List String :=
  match splitWords text with
  | [] => [""]
  | w :: ws =>
      (ws.foldl (wrapStep maxChars) ([], w)).1 ++
        [(ws.foldl (wrapStep maxChars) ([], w)).2]

/-- `getRowHeight(row)` (lines 68-71): `max(16, lines*12+4)` where `lines`
is the wrapped description line count.  Identical to `getBomRowHeight`. -/
def getRowHeight (row : TableRow) : Nat :=
  max 16 ((wrapTextByChars row.description 42).length * 12 + 4)

/-- `pageEnd` in `chunkRows` (line 77): `PAGE_HEIGHT - TABLE_BOTTOM`. -/
def chunkPageEnd : Nat := PAGE_HEIGHT - TABLE_BOTTOM

/-- The starting running height of a chunk (line 76):
`TABLE_TOP + HEADER_HEIGHT`. -/
def chunkStartY : Nat := TABLE_TOP + HEADER_HEIGHT

/-- The `rows.forEach` loop of `chunkRows` (lines 79-88), with the
mutable `chunks`/`current`/`y` threaded explicitly. -/
def chunkLoop : List TableRow → List (List TableRow) → List TableRow → Nat →
    List (List TableRow) × List TableRow
  | [], chunks, current, _ => (chunks, current)
  | row :: rest, chunks, current, y =>
      if y + getRowHeight row > chunkPageEnd ∧ current ≠ [] then
        chunkLoop rest (chunks ++ [current]) [row]
          (chunkStartY + getRowHeight row)
      else
        chunkLoop rest chunks (current ++ [row]) (y + getRowHeight row)

/-- The two trailing pushes of `chunkRows` (lines 90-91): flush a
nonempty pending chunk, then guarantee at least one (possibly empty)
chunk. -/
def chunkFlush (chunks : List (List TableRow)) (current : List TableRow) :
    List (List TableRow) :=
  if (if current ≠ [] then chunks ++ [current] else chunks) = [] then [[]]
  else if current ≠ [] then chunks ++ [current] else chunks

/-- `chunkRows(rows)` (lines 73-93): run the loop over the rows, then
flush.  Identical to `chunkBomRows` (lines 250-270). -/
def chunkRows (rows : List TableRow) : List (List TableRow) :=
  chunkFlush (chunkLoop rows [] [] chunkStartY).1
    (chunkLoop rows [] [] chunkStartY).2

/-- Sum of `getRowHeight` over a row list (the running `y` increment of
the source loops, measured from the chunk start). -/
def heightsSum (rows : List TableRow) : Nat :=
  (rows.map getRowHeight).sum

/-! ## BOM page layout (part_007 lines 95-212)

The layout emits plain serialized Fabric objects.  The embedding keeps
the fields the layout itself computes (kind, text, geometry, fill,
boldness, alignment, metadata id); the constant lock/selectability flags
(`selectable:false`, `evented:false`, ...) are identical on every object
and carry no information for the claims. -/

/-- A serialized object emitted by the BOM layout. -/
structure BomObject where
  type : String
  text : Option String
  left : Nat
  top : Nat
  width : Nat
  height : Nat
  fill : String
  bold : Bool
  textAlign : String
  dataId : String
deriving DecidableEq, Repr

/-- `makeRect(left, top, width, height, fill)` (lines 95-115). -/
def makeRect (left top width height : Nat)
    (fill : String := "rgba(0,0,0,0)") : BomObject :=
  { type := "rect", text := none, left, top, width, height, fill
    bold := false, textAlign := "left", dataId := "bom-layout" }

/-- `makeHeaderText(text, left, top)` (lines 117-131). -/
def makeHeaderText (text : String) (left top : Nat) : BomObject :=
  { type := "text", text := some text, left, top, width := 0, height := 0
    fill := "#0f172a", bold := true, textAlign := "left"
    dataId := "bom-layout" }

/-- `makeCellText(text, left, top, width, bold, align)` (lines 133-157). -/
def makeCellText (text : String) (left top width : Nat)
    (bold : Bool := false) (align : String := "left") : BomObject :=
  { type := "textbox", text := some text, left, top, width, height := 0
    fill := "#111827", bold, textAlign := align, dataId := "bom-cell-text" }

/-- The table header strings of `buildPageJson` (line 164). -/
def BOM_HEADERS : List String :=
  ["Part", "Description", "Unit Price", "Qty", "Total"]

/-- The header `forEach` of `buildPageJson` (lines 165-169): one shaded
rect plus one header text per column, advancing `x` by the column width. -/
def headerLoop : List (String × Nat) → Nat → List BomObject
  | [], _ => []
  | (header, w) :: rest, x =>
      makeRect x TABLE_TOP w HEADER_HEIGHT "#d4d4d4" ::
      makeHeaderText header (x + 4) (TABLE_TOP + 3) ::
      headerLoop rest (x + w)

/-- All header-row objects of a BOM page. -/
def headerObjects : List BomObject :=
  headerLoop (BOM_HEADERS.zip COL_WIDTHS) TABLE_X

/-- The per-row cell rect loop of `buildPageJson` (lines 176-179). -/
def rowRects : List Nat → Nat → Nat → Nat → List BomObject
  | [], _, _, _ => []
  | w :: ws, colX, y, h => makeRect colX y w h :: rowRects ws (colX + w) y h

/-- The objects of one data row of `buildPageJson` (lines 172-187): five
bordered cell rects followed by the five cell texts. -/
def rowObjects (row : TableRow) (y : Nat) : List BomObject :=
  let rowHeight := getRowHeight row
  let descLines := String.intercalate "\n" (wrapTextByChars row.description 42)
  let w0 := COL_WIDTHS.getD 0 0
  let w1 := COL_WIDTHS.getD 1 0
  let w2 := COL_WIDTHS.getD 2 0
  let w3 := COL_WIDTHS.getD 3 0
  let w4 := COL_WIDTHS.getD 4 0
  rowRects COL_WIDTHS TABLE_X y rowHeight ++
  [ makeCellText row.part (TABLE_X + 4) (y + 2) (w0 - 8) row.isBold
  , makeCellText descLines (TABLE_X + w0 + 4) (y + 2) (w1 - 8) row.isBold
  , makeCellText (row.unitPrice.getD "") (TABLE_X + w0 + w1 + 4) (y + 2)
      (w2 - 8) row.isBold
  , makeCellText (row.qty.getD "") (TABLE_X + w0 + w1 + w2 + 4) (y + 2)
      (w3 - 8) row.isBold "center"
  , makeCellText (row.total.getD "") (TABLE_X + w0 + w1 + w2 + w3 + 4) (y + 2)
      (w4 - 8) row.isBold ]

/-- The `rows.forEach` of `buildPageJson`: emit each row's objects at the
running `y`, which advances by the row height. -/
def rowsLoop : List TableRow → Nat → List BomObject
  | [], _ => []
  | row :: rest, y => rowObjects row y ++ rowsLoop rest (y + getRowHeight row)

/-- The totals-row objects of `buildPageJson` (lines 189-196): two rects
spanning the first four columns and the total column, the bold `Total:`
label, and the grand-total cell. -/
def totalObjects (grandTotal : Option String) (y : Nat) : List BomObject :=
  let w0 := COL_WIDTHS.getD 0 0
  let w1 := COL_WIDTHS.getD 1 0
  let w2 := COL_WIDTHS.getD 2 0
  let w3 := COL_WIDTHS.getD 3 0
  let w4 := COL_WIDTHS.getD 4 0
  let leftWidth := w0 + w1 + w2 + w3
  [ makeRect TABLE_X y leftWidth 16
  , makeRect (TABLE_X + leftWidth) y w4 16
  , makeHeaderText "Total:" (TABLE_X + leftWidth - 44) (y + 3)
  , makeCellText (grandTotal.getD "") (TABLE_X + leftWidth + 4) (y + 2)
      (w4 - 8) true ]

/-- The serialized page graph returned by `buildPageJson`. -/
structure BomPageJson where
  version : String
  objects : List BomObject
deriving DecidableEq, Repr

/-- `buildPageJson(rows, grandTotal, includeTotal)` (lines 159-202):
header row, then each data row at its running `y`, then optionally the
totals row below the last data row. -/
def buildPageJson (rows : List TableRow) (grandTotal : Option String)
    (includeTotal : Bool) : BomPageJson :=
  { version := "5.3.0"
    objects :=
      headerObjects ++
      rowsLoop rows (TABLE_TOP + HEADER_HEIGHT) ++
      (if includeTotal then
        totalObjects grandTotal (TABLE_TOP + HEADER_HEIGHT + heightsSum rows)
      else []) }

/-- A produced BOM page (`Page` in types.ts).  The `id` field is
`crypto.randomUUID()` in the source — environment-supplied randomness
that no claim mentions — and is left out of the embedding. -/
structure BomPage where
  name : String
  fabricJSON : BomPageJson
deriving DecidableEq, Repr

/-- `TableData` (types.ts lines 179-182). -/
structure TableData where
  rows : List TableRow
  grandTotal : Option String
deriving DecidableEq, Repr

/-- The `chunks.map((chunk, index) => ...)` of `createBomPages`
(lines 207-211), with the chunk index threaded explicitly and `total`
the chunk count. -/
def createBomPagesLoop (grandTotal : Option String) (total : Nat) :
    List (List TableRow) → Nat → List BomPage
  | [], _ => []
  | chunk :: rest, i =>
      { name := "BOM " ++ toString (i + 1)
        fabricJSON := buildPageJson chunk grandTotal (decide (i = total - 1)) } ::
      createBomPagesLoop grandTotal total rest (i + 1)

/-- `createBomPages(data)` (lines 204-212): one page per chunk of
`chunkRows(data.rows)`, the totals row only on the final chunk. -/
def createBomPages (data : TableData) : List BomPage :=
  createBomPagesLoop data.grandTotal (chunkRows data.rows).length
    (chunkRows data.rows) 0

/-- The totals-row marker: a `text`-kind object with exactly the text
`Total:`.  Only `makeHeaderText "Total:"` from the totals row produces
one (column headers differ and row cells are textboxes). -/
def isTotalsLabel (o : BomObject) : Bool :=
  o.type = "text" && o.text = some "Total:"

/-- Whether a serialized BOM page contains the totals row. -/
def hasTotalsRow (json : BomPageJson) : Bool :=
  json.objects.any isTotalsLabel

/-! ## PDF export text overlays (exportUtils.ts lines 453-572)

`exportPagesAsPdf` walks the flattened ungrouped text objects of a page
canvas, builds `textOverlays` and `hideForRaster`, hides the latter from
the raster pass, and finally emits one `doc.text` call per overlay in
PDF point space.  Floats are modelled as `ℚ`; the `isFiniteNumber`
anchor guard is vacuously true over `ℚ` and so not modelled.  The font
family/style and color mappings (`mapFontFamily`, `mapFontStyle`,
`parseColor`) are pure per-node functions that do not influence which
overlays exist, their rendering mode, or their coordinates, and are not
modelled. -/

/-- `PDF_PAGE_WIDTH` (595pt). -/
def PDF_PAGE_WIDTH : ℚ := 595

/-- `PDF_PAGE_HEIGHT` (842pt). -/
def PDF_PAGE_HEIGHT : ℚ := 842

/-- `A4_PX.width` (main.tsx line 53). -/
def A4_PX_WIDTH : ℚ := 794

/-- `A4_PX.height` (main.tsx line 53). -/
def A4_PX_HEIGHT : ℚ := 1123

/-- `scaleX = PDF_PAGE_WIDTH / A4_PX.width` (line 462). -/
def PDF_SCALE_X : ℚ := PDF_PAGE_WIDTH / A4_PX_WIDTH

/-- `scaleY = PDF_PAGE_HEIGHT / A4_PX.height` (line 463). -/
def PDF_SCALE_Y : ℚ := PDF_PAGE_HEIGHT / A4_PX_HEIGHT

/-- JavaScript `String.prototype.trim` (whitespace stripped from both
ends), modelled on the character list so it evaluates inside the
kernel. -/
def jsTrim (s : String) : String :=
  String.mk
    (((s.data.dropWhile Char.isWhitespace).reverse.dropWhile
      Char.isWhitespace).reverse)

/-- JavaScript float truncation toward zero (the rounding of `%`). -/
def jsTrunc (q : ℚ) : ℤ :=
  if 0 ≤ q then ⌊q⌋ else ⌈q⌉

/-- JavaScript `a % b` on numbers (remainder with the dividend's sign). -/
def jsMod (a b : ℚ) : ℚ :=
  a - b * (jsTrunc (a / b) : ℚ)

/-- `normalizeAngle(angle)` (lines 357-362): reduce modulo 360 into
`(-180, 180]`-style range. -/
def normalizeAngle (angle : ℚ) : ℚ :=
  let v0 := jsMod angle 360
  let v1 := if v0 > 180 then v0 - 360 else v0
  if v1 < -180 then v1 + 360 else v1

/-- One flattened, ungrouped text object of the export canvas as the
overlay pass reads it: its text, the `getPointByOrigin(align, "top")`
anchor, the `getTextAngle` result (equal to `angle` for ungrouped
objects), alignment, font size, the object's `scaleY`, the node kind and
its `getScaledWidth()`. -/
structure ExportTextNode where
  text : String
  x : ℚ
  y : ℚ
  angle : ℚ
  textAlign : String
  fontSize : ℚ
  objScaleY : ℚ
  type : String
  scaledWidth : ℚ
deriving DecidableEq, Repr

/-- One entry of the `textOverlays` array (lines 483-496). -/
structure TextOverlay where
  text : String
  x : ℚ
  y : ℚ
  maxWidth : Option ℚ
  angle : ℚ
  align : String
  fontSize : ℚ
  renderingMode : String
deriving DecidableEq, Repr

/-- The body of the `textObjects.forEach` (lines 499-525) for one node:
`none` when the trimmed text is empty, otherwise the overlay entry that
is pushed.  `renderingMode` is `invisible` exactly when the normalized
angle exceeds the 0.01 threshold. -/
def overlayOf (n : ExportTextNode) : Option TextOverlay :=
  if jsTrim n.text = "" then none
  else
    let angle := normalizeAngle n.angle
    let isRotated := |angle| > (1 / 100 : ℚ)
    let align :=
      if n.textAlign = "center" ∨ n.textAlign = "right" then n.textAlign
      else "left"
    some
      { text := n.text
        x := n.x
        y := n.y
        maxWidth :=
          if ¬isRotated ∧ n.type = "textbox" then some n.scaledWidth else none
        angle
        align
        fontSize := n.fontSize * |n.objScaleY|
        renderingMode := if isRotated then "invisible" else "fill" }

/-- The `textOverlays` list built by the forEach, in node order. -/
def buildTextOverlays (nodes : List ExportTextNode) : List TextOverlay :=
  nodes.filterMap overlayOf

/-- The `hideForRaster` list (line 510): nodes with nonempty trimmed text
whose normalized angle is within the threshold; each is set invisible
before the raster pass (line 529). -/
def hiddenForRaster (nodes : List ExportTextNode) : List ExportTextNode :=
  nodes.filter fun n =>
    jsTrim n.text ≠ "" && !(decide (|normalizeAngle n.angle| > (1 / 100 : ℚ)))

/-- One `doc.text` call of the overlay emission loop (lines 544-565). -/
structure PdfTextOp where
  text : String
  x : ℚ
  y : ℚ
  fontSize : ℚ
  angle : Option ℚ
  maxWidth : Option ℚ
  align : String
  renderingMode : String
deriving DecidableEq, Repr

/-- The emission of one overlay (lines 544-565): positions scale by
`scaleX`/`scaleY`, the font size by `scaleY` with a 6pt floor, the angle
option is set (negated) only beyond the threshold, and `maxWidth` scales
by `scaleX` when positive. -/
def emitOverlay (item : TextOverlay) : PdfTextOp :=
  { text := item.text
    x := item.x * PDF_SCALE_X
    y := item.y * PDF_SCALE_Y
    fontSize := max 6 (item.fontSize * PDF_SCALE_Y)
    angle := if |item.angle| > (1 / 100 : ℚ) then some (-item.angle) else none
    maxWidth :=
      match item.maxWidth with
      | some w => if w > 0 then some (w * PDF_SCALE_X) else none
      | none => none
    align := item.align
    renderingMode := item.renderingMode }

/-! ## Image crop math (pageUtils.ts lines 123-192) -/

/-- JavaScript `a || b` on the numbers reaching the crop math (`0` and
`undefined` are both falsy and both fall back; absent optional numeric
fields are modelled as `0`). -/
def jsOr (a b : ℚ) : ℚ :=
  if a = 0 then b else a

/-- `clamp(value, min, max)` (pageUtils.ts lines 91-93). -/
def clampQ (value lo hi : ℚ) : ℚ :=
  min hi (max lo value)

/-- `MIN_IMAGE_CROP_SIZE` (24). -/
def MIN_IMAGE_CROP_SIZE : ℚ := 24

/-- The image state the crop math reads and writes: rotation, the cached
crop source size (`data.cropSourceWidth/Height`, absent until cached),
the element's natural size (`0` when unavailable), scale, crop origin,
visible size and position. -/
structure CropImage where
  angle : ℚ
  cropSourceWidth : Option ℚ
  cropSourceHeight : Option ℚ
  naturalWidth : ℚ
  naturalHeight : ℚ
  scaleX : ℚ
  scaleY : ℚ
  cropX : ℚ
  cropY : ℚ
  width : ℚ
  height : ℚ
  left : ℚ
  top : ℚ
deriving DecidableEq, Repr

/-- `ensureImageCropSourceSize(image)` (lines 123-140): use the cached
numeric `data.cropSourceWidth/Height` when present, else fall back to
the element's natural size, else the visible size, else `0`; cache the
result back into `data` and return it. -/
def ensureImageCropSourceSize (image : CropImage) : CropImage × ℚ × ℚ :=
  let sourceWidth :=
    match image.cropSourceWidth with
    | some w => w
    | none => jsOr image.naturalWidth (jsOr image.width 0)
  let sourceHeight :=
    match image.cropSourceHeight with
    | some h => h
    | none => jsOr image.naturalHeight (jsOr image.height 0)
  ({ image with
      cropSourceWidth := some sourceWidth
      cropSourceHeight := some sourceHeight },
   sourceWidth, sourceHeight)

/-- The four custom edge-drag crop handles. -/
inductive CropSide where
  | left
  | right
  | top
  | bottom
deriving DecidableEq, Repr

/-- `applyImageCropFromPointer(image, pointer, side)` (lines 144-192):
refuse (returning `false`) when the image is rotated beyond the 0.01
threshold or the cached source size is zero; otherwise clamp the dragged
edge into `[MIN_IMAGE_CROP_SIZE, source bounds]` and update crop
origin / visible size / position for the dragged side. -/
def applyImageCropFromPointer (image : CropImage) (px py : ℚ)
    (side : CropSide) : CropImage × Bool :=
  if |jsOr image.angle 0| > (1 / 100 : ℚ) then (image, false)
  else
    let ens := ensureImageCropSourceSize image
    let image := ens.1
    let sourceWidth := ens.2.1
    let sourceHeight := ens.2.2
    if sourceWidth = 0 ∨ sourceHeight = 0 then (image, false)
    else
      let scaleX := |jsOr image.scaleX 1|
      let scaleY := |jsOr image.scaleY 1|
      let cropX := jsOr image.cropX 0
      let cropY := jsOr image.cropY 0
      let visibleWidth := jsOr image.width sourceWidth
      let visibleHeight := jsOr image.height sourceHeight
      let left := jsOr image.left 0
      let top := jsOr image.top 0
      let right := left + visibleWidth * scaleX
      let bottom := top + visibleHeight * scaleY
      match side with
      | .right =>
          let nextWidth :=
            clampQ ((px - left) / scaleX) MIN_IMAGE_CROP_SIZE
              (sourceWidth - cropX)
          ({ image with width := nextWidth }, true)
      | .left =>
          let sourceRight := cropX + visibleWidth
          let desiredWidth :=
            clampQ ((right - px) / scaleX) MIN_IMAGE_CROP_SIZE sourceRight
          let nextCropX :=
            clampQ (sourceRight - desiredWidth) 0
              (sourceWidth - MIN_IMAGE_CROP_SIZE)
          let nextWidth :=
            clampQ (sourceRight - nextCropX) MIN_IMAGE_CROP_SIZE
              (sourceWidth - nextCropX)
          ({ image with
              cropX := nextCropX
              width := nextWidth
              left := right - nextWidth * scaleX }, true)
      | .bottom =>
          let nextHeight :=
            clampQ ((py - top) / scaleY) MIN_IMAGE_CROP_SIZE
              (sourceHeight - cropY)
          ({ image with height := nextHeight }, true)
      | .top =>
          let sourceBottom := cropY + visibleHeight
          let desiredHeight :=
            clampQ ((bottom - py) / scaleY) MIN_IMAGE_CROP_SIZE sourceBottom
          let nextCropY :=
            clampQ (sourceBottom - desiredHeight) 0
              (sourceHeight - MIN_IMAGE_CROP_SIZE)
          let nextHeight :=
            clampQ (sourceBottom - nextCropY) MIN_IMAGE_CROP_SIZE
              (sourceHeight - nextCropY)
          ({ image with
              cropY := nextCropY
              height := nextHeight
              top := bottom - nextHeight * scaleY }, true)

/-! ## Proof-support definitions and concrete instances -/

/-- The history invariant maintained by the controller: at most 50
snapshots, the index in bounds, and `hasPageChanges` set whenever the
index sits above the seed. -/
def HistoryInv (s : HistoryState) : Prop :=
  s.history.length ≤ 50 ∧ s.historyIndex < s.history.length ∧
    (s.historyIndex ≠ 0 → s.hasPageChanges = true)

/-- A chunk respecting the printable area: a single (possibly oversize)
row, or rows whose heights fit between the table start and the page
end. -/
def GoodChunk (c : List TableRow) : Prop :=
  c.length ≤ 1 ∨ chunkStartY + heightsSum c ≤ chunkPageEnd

/-- A text node rotated by 30 degrees (the spec's scenario input). -/
def rotNode : ExportTextNode :=
  { text := "hello", x := 10, y := 20, angle := 30, textAlign := "left"
    fontSize := 16, objScaleY := 1, type := "i-text", scaledWidth := 0 }

/-- An unrotated sibling text node. -/
def plainNode : ExportTextNode :=
  { text := "world", x := 40, y := 80, angle := 0, textAlign := "left"
    fontSize := 16, objScaleY := 1, type := "i-text", scaledWidth := 0 }

/-- A 100×100 unscaled image carrying a small but non-zero rotation of
0.005 degrees. -/
def exImg : CropImage :=
  { angle := 1 / 200, cropSourceWidth := none, cropSourceHeight := none
    naturalWidth := 100, naturalHeight := 100, scaleX := 1, scaleY := 1
    cropX := 0, cropY := 0, width := 100, height := 100, left := 0, top := 0 }

/-- An unrotated image whose element reports no natural size and whose
visible size is zero, so the computed crop source size is zero. -/
def zeroImg : CropImage :=
  { angle := 0, cropSourceWidth := none, cropSourceHeight := none
    naturalWidth := 0, naturalHeight := 0, scaleX := 1, scaleY := 1
    cropX := 3, cropY := 4, width := 0, height := 0, left := 7, top := 9 }

/-- A 43-character single word (one character beyond the 42-character
wrap limit). -/
def longWord : String := "aaaaaaaaaaaaaaaaaaaaaaaaaaaaaaaaaaaaaaaaaaa"

/-- A one-row table fixture. -/
def exRow : TableRow :=
  { part := "p", description := "d", unitPrice := none, qty := none
    total := none, isBold := false }

/-- A BOM-group scene object. -/
def bomGroupObj : SceneObject := { dataId := some "bom-table-group" }

/-- A plain user scene object. -/
def userObj : SceneObject := { dataId := some "user-image" }

/-- The designer-contact scene object. -/
def contactObj : SceneObject := { dataId := some CONTACT_INFO_ID }

/-- The single page produced by `createBomPages` on empty table data. -/
def bomPage0 : BomPage := { name := "BOM 1", fabricJSON := buildPageJson [] none true }

/-!
# Theorems
-/

/-! ## C1 — decoration exclusion from persisted snapshots -/

/-- C1 (counterexample): the claim that no decoration-id object — the
designer-contact block included — survives `buildPersistedJson` is false:
an object tagged `designer-contact-info` is a decoration id yet is kept
verbatim in the serialized object list, because the filter tests only
`isLockedDecorationId`, whose set omits the contact id. -/
theorem contact_info_survives_persistence :
    buildPersistedJson [contactObj] = [contactObj] ∧
    isDecorationId contactObj.dataId = true ∧
    isLockedDecorationId contactObj.dataId = false := by decide

/-- C1 (amended): every committed snapshot built by `buildPersistedJson`
excludes exactly the objects whose metadata id is a locked decoration id
(header, footer, stamp, date, page number); every other object — the
designer-contact block included — is retained. -/
theorem buildPersistedJson_strips_only_locked_decorations
    (objects : List SceneObject) :
    (∀ o ∈ buildPersistedJson objects, isLockedDecorationId o.dataId = false) ∧
    (∀ o ∈ objects, isLockedDecorationId o.dataId = false →
      o ∈ buildPersistedJson objects) := by
  constructor
  · intro o ho
    have h := List.mem_filter.mp ho
    simpa using h.2
  · intro o ho hlock
    exact List.mem_filter.mpr ⟨ho, by simp [hlock]⟩

/-- Witness for C1's amended theorem at a concrete object list. -/
theorem buildPersistedJson_strips_only_locked_decorations_witness :
    isLockedDecorationId userObj.dataId = false ∧
    userObj ∈ buildPersistedJson [userObj] :=
  ⟨(buildPersistedJson_strips_only_locked_decorations [userObj]).1 userObj
      (by decide),
   (buildPersistedJson_strips_only_locked_decorations [userObj]).2 userObj
      (by decide) (by decide)⟩

/-! ## C4 — BOM selections are immune to delete and copy -/

/-- C4: deleting (`removeActiveObjects`) a selection consisting only of
BOM-tagged objects leaves the object list unchanged and pushes no history
entry, and `copy` on a BOM-tagged active object leaves the clipboard (and
a fortiori the object list and history, which `copy` never touches)
unchanged. -/
theorem bom_selection_delete_copy_noop (objects active : List SceneObject)
    (aobj clip : Option SceneObject)
    (hactive : ∀ o ∈ active, isBomObject o = true)
    (haobj : ∀ o, aobj = some o → isBomObject o = true) :
    removeActiveObjects objects active aobj = (objects, false) ∧
    copy clip aobj = clip := by
  constructor
  · unfold removeActiveObjects
    by_cases hA : active.length > 0
    · rw [if_pos hA]
      have hfil : active.filter
          (fun obj => !isDecorationId obj.dataId && !isBomObject obj) = [] := by
        rw [List.filter_eq_nil_iff]
        intro a ha
        simp [hactive a ha]
      rw [hfil]
      simp
    · rw [if_neg hA]
      cases aobj with
      | none => rfl
      | some o =>
        have hb := haobj o rfl
        simp [hb]
  · cases aobj with
    | none => rfl
    | some o =>
      have hb := haobj o rfl
      simp [copy, hb]

/-- Witness for C4 at a concrete BOM-group selection. -/
theorem bom_selection_delete_copy_noop_witness :
    removeActiveObjects [userObj, bomGroupObj] [bomGroupObj]
      (some bomGroupObj) = ([userObj, bomGroupObj], false) ∧
    copy none (some bomGroupObj) = none :=
  bom_selection_delete_copy_noop [userObj, bomGroupObj] [bomGroupObj]
    (some bomGroupObj) none (by decide)
    (by intro o ho; injection ho with h; subst h; decide)

/-! ## History invariants (C2, C3, C10) -/

/-- The seed state satisfies the history invariant. -/
theorem seed_historyInv (json : String) :
    HistoryInv (seedHistoryFromCanvas json) := by
  refine ⟨by simp [seedHistoryFromCanvas], by simp [seedHistoryFromCanvas], ?_⟩
  intro h
  simp [seedHistoryFromCanvas] at h

/-- `pushHistory` preserves the history invariant; in particular the
snapshot list stays within the 50-entry cap. -/
theorem pushHistory_historyInv (s : HistoryState) (json : String)
    (h : HistoryInv s) : HistoryInv (pushHistory s json) := by
  obtain ⟨h1, h2, h3⟩ := h
  unfold pushHistory
  split
  · exact ⟨h1, h2, h3⟩
  · have htake : (s.history.take (s.historyIndex + 1)).length
        = s.historyIndex + 1 := by
      rw [List.length_take]
      omega
    refine ⟨?_, ?_, fun _ => rfl⟩
    · simp only [List.length_drop, List.length_append, htake]
      omega
    · simp only [List.length_drop, List.length_append, htake]
      omega

/-- `undo` never changes the snapshot list. -/
theorem undo_history_eq (s : HistoryState) : (undo s).history = s.history := by
  unfold undo
  split
  · rfl
  · split
    · rfl
    · rfl

/-- Under the invariant, `undo` moves the index down by exactly one
(truncated at the seed index 0). -/
theorem undo_index_eq (s : HistoryState) (h : HistoryInv s) :
    (undo s).historyIndex = s.historyIndex - 1 := by
  obtain ⟨_, _, h3⟩ := h
  unfold undo
  split
  · rename_i hpc
    have : s.historyIndex = 0 := by
      by_contra hne
      simp [h3 hne] at hpc
    omega
  · split
    · rename_i hz
      omega
    · rfl

/-- `undo` preserves the history invariant. -/
theorem undo_historyInv (s : HistoryState) (h : HistoryInv s) :
    HistoryInv (undo s) := by
  obtain ⟨h1, h2, h3⟩ := h
  unfold undo
  split
  · exact ⟨h1, h2, h3⟩
  · split
    · exact ⟨h1, h2, h3⟩
    · rename_i hpc hz
      refine ⟨h1, by simp; omega, ?_⟩
      intro hne
      simp only at hne ⊢
      rw [if_neg hne]
      exact h3 hz

/-- Every reachable state (any mix of committed mutations and undos from
a seeded history) satisfies the invariant. -/
theorem applyHistoryOps_historyInv (ops : List HistoryOp) :
    ∀ s : HistoryState, HistoryInv s → HistoryInv (applyHistoryOps s ops) := by
  induction ops with
  | nil => intro s h; exact h
  | cons op rest ih =>
    intro s h
    rw [applyHistoryOps, List.foldl_cons]
    apply ih
    cases op with
    | push json => exact pushHistory_historyInv s json h
    | undoOp => exact undo_historyInv s h

/-- Iterated `undo` keeps the snapshot list intact. -/
theorem undo_iterate_history (s : HistoryState) (n : Nat) :
    (undo^[n] s).history = s.history := by
  induction n with
  | zero => rfl
  | succ n ih =>
    rw [Function.iterate_succ_apply', undo_history_eq, ih]

/-- Iterated `undo` preserves the invariant. -/
theorem undo_iterate_historyInv (s : HistoryState) (h : HistoryInv s) (n : Nat) :
    HistoryInv (undo^[n] s) := by
  induction n with
  | zero => exact h
  | succ n ih =>
    rw [Function.iterate_succ_apply']
    exact undo_historyInv _ ih

/-- Iterated `undo` lowers the index by the iteration count, stopping at
the seed index 0. -/
theorem undo_iterate_index (s : HistoryState) (h : HistoryInv s) (n : Nat) :
    (undo^[n] s).historyIndex = s.historyIndex - n := by
  induction n with
  | zero => rfl
  | succ n ih =>
    rw [Function.iterate_succ_apply',
      undo_index_eq _ (undo_iterate_historyInv s h n), ih]
    omega

/-! ## C2 — the 50-entry history bound and safe repeated undo -/

/-- C2: from a seeded history, any sequence of committed mutations
(`pushHistory`) and undos keeps the history list within 50 entries, and
repeating `undo` `n` times never throws: it leaves the snapshot list
untouched, lowers the index by exactly `n` (floored at the oldest
retained snapshot, index 0), and for `n ≥ 50` it has certainly landed on
index 0. -/
theorem history_bounded_undo_safe (seed : String) (ops : List HistoryOp)
    (n : Nat) :
    (applyHistoryOps (seedHistoryFromCanvas seed) ops).history.length ≤ 50 ∧
    (undo^[n] (applyHistoryOps (seedHistoryFromCanvas seed) ops)).history =
      (applyHistoryOps (seedHistoryFromCanvas seed) ops).history ∧
    (undo^[n] (applyHistoryOps (seedHistoryFromCanvas seed) ops)).historyIndex =
      (applyHistoryOps (seedHistoryFromCanvas seed) ops).historyIndex - n ∧
    (50 ≤ n →
      (undo^[n] (applyHistoryOps (seedHistoryFromCanvas seed) ops)).historyIndex
        = 0) := by
  have hinv := applyHistoryOps_historyInv ops (seedHistoryFromCanvas seed)
    (seed_historyInv seed)
  obtain ⟨h1, h2, _⟩ := hinv
  refine ⟨h1, undo_iterate_history _ n, undo_iterate_index _ ?_ n, ?_⟩
  · exact applyHistoryOps_historyInv ops (seedHistoryFromCanvas seed)
      (seed_historyInv seed)
  · intro hn
    rw [undo_iterate_index _ (applyHistoryOps_historyInv ops
      (seedHistoryFromCanvas seed) (seed_historyInv seed)) n]
    omega

/-- Witness for C2: one committed mutation then 50 undos lands on the
seed. -/
theorem history_bounded_undo_safe_witness :
    (undo^[50] (applyHistoryOps (seedHistoryFromCanvas "seed")
      [HistoryOp.push "b"])).historyIndex = 0 :=
  (history_bounded_undo_safe "seed" [HistoryOp.push "b"] 50).2.2.2 (by decide)

/-! ## C3 — undo immediately after the first committed addText -/

/-- C3 (counterexample): on a fresh page (seed snapshot only), after one
committed `addText` mutation, `undo()` is not a no-op: `hasPageChanges`
is true and the index is 1, so `undo` moves the index back to the seed
snapshot at index 0 — the snapshot at the restored index is the seed,
without the added text. -/
theorem undo_after_first_push_not_noop :
    undo (pushHistory (seedHistoryFromCanvas "seed") "seed-plus-text") ≠
      pushHistory (seedHistoryFromCanvas "seed") "seed-plus-text" ∧
    (pushHistory (seedHistoryFromCanvas "seed") "seed-plus-text").historyIndex
      = 1 ∧
    (undo (pushHistory (seedHistoryFromCanvas "seed")
      "seed-plus-text")).historyIndex = 0 ∧
    (undo (pushHistory (seedHistoryFromCanvas "seed")
      "seed-plus-text")).history.get? 0 = some "seed" := by decide

/-- C3 (amended): `undo()` immediately after the first committed
`addText` on a freshly loaded page undoes it: the index moves from 1
back to the seed snapshot at index 0 (reloading the seed, so the added
text is removed), the index never goes below the seed, and a second
`undo` is a no-op. -/
theorem undo_after_first_push_restores_seed (seed json : String)
    (h : json ≠ seed) :
    pushHistory (seedHistoryFromCanvas seed) json =
      { history := [seed, json], historyIndex := 1, hasPageChanges := true } ∧
    undo (pushHistory (seedHistoryFromCanvas seed) json) =
      { history := [seed, json], historyIndex := 0, hasPageChanges := false } ∧
    undo (undo (pushHistory (seedHistoryFromCanvas seed) json)) =
      undo (pushHistory (seedHistoryFromCanvas seed) json) := by
  have h1 : pushHistory (seedHistoryFromCanvas seed) json =
      { history := [seed, json], historyIndex := 1, hasPageChanges := true } := by
    unfold pushHistory seedHistoryFromCanvas
    rw [if_neg (by simp; exact fun hh => h hh.symm)]
    simp
  refine ⟨h1, ?_, ?_⟩
  · rw [h1]
    unfold undo
    simp
  · rw [h1]
    unfold undo
    simp

/-- Witness for C3's amended theorem at concrete snapshots. -/
theorem undo_after_first_push_restores_seed_witness :
    undo (pushHistory (seedHistoryFromCanvas "a") "b") =
      { history := ["a", "b"], historyIndex := 0, hasPageChanges := false } :=
  (undo_after_first_push_restores_seed "a" "b" (by decide)).2.1

/-! ## C10 — commits after undo truncate the redo tail -/

/-- C10: when the index sits below the newest entry (after undos), the
next committed mutation with changed content truncates every entry above
the index, appends the new snapshot as the last entry, and an immediate
`redo()` is a no-op. -/
theorem pushHistory_truncates_redo_noop (s : HistoryState) (json : String)
    (hlen : s.history.length ≤ 50)
    (hidx : s.historyIndex + 1 < s.history.length)
    (hnew : ¬ s.history.get? s.historyIndex = some json) :
    (pushHistory s json).history =
      s.history.take (s.historyIndex + 1) ++ [json] ∧
    (pushHistory s json).historyIndex = s.historyIndex + 1 ∧
    (pushHistory s json).history.getLast? = some json ∧
    redo (pushHistory s json) = pushHistory s json := by
  have htake : (s.history.take (s.historyIndex + 1)).length
      = s.historyIndex + 1 := by
    rw [List.length_take]
    omega
  have hL : (s.history.take (s.historyIndex + 1) ++ [json]).length
      = s.historyIndex + 2 := by
    simp [htake]
  have hps : pushHistory s json =
      { history := s.history.take (s.historyIndex + 1) ++ [json]
        historyIndex := s.historyIndex + 1
        hasPageChanges := true } := by
    unfold pushHistory
    rw [if_neg hnew]
    have hzero : s.historyIndex + 2 - 50 = 0 := by omega
    simp [hL, hzero]
  refine ⟨by rw [hps], by rw [hps], ?_, ?_⟩
  · rw [hps]
    exact List.getLast?_concat _
  · rw [hps]
    unfold redo
    simp [hL]

/-- Witness for C10 at a concrete three-entry history with the index at
its bottom. -/
theorem pushHistory_truncates_redo_noop_witness :
    redo (pushHistory
        { history := ["a", "b", "c"], historyIndex := 0, hasPageChanges := false }
        "d") =
      pushHistory
        { history := ["a", "b", "c"], historyIndex := 0, hasPageChanges := false }
        "d" :=
  (pushHistory_truncates_redo_noop
    { history := ["a", "b", "c"], historyIndex := 0, hasPageChanges := false }
    "d" (by decide) (by decide) (by decide)).2.2.2

/-! ## Chunking lemmas (C5) -/

/-- `heightsSum` over a snoc. -/
theorem heightsSum_concat (rows : List TableRow) (row : TableRow) :
    heightsSum (rows ++ [row]) = heightsSum rows + getRowHeight row := by
  simp [heightsSum]

/-- The chunk loop emits every processed row exactly once, in order:
its output, flattened, extends the accumulated chunks by the pending
current chunk and the remaining rows. -/
theorem chunkLoop_join (rest : List TableRow) :
    ∀ (chunks : List (List TableRow)) (current : List TableRow) (y : Nat),
      (chunkLoop rest chunks current y).1.join ++
        (chunkLoop rest chunks current y).2 =
      chunks.join ++ current ++ rest := by
  induction rest with
  | nil =>
    intro chunks current y
    simp [chunkLoop]
  | cons row rest ih =>
    intro chunks current y
    unfold chunkLoop
    split
    · rw [ih]
      simp
    · rw [ih]
      simp

/-- The chunk loop maintains the printable-area bound: every finished
chunk and the pending chunk are `GoodChunk`s, provided the running `y`
is the chunk start plus the pending heights. -/
theorem chunkLoop_good (rest : List TableRow) :
    ∀ (chunks : List (List TableRow)) (current : List TableRow) (y : Nat),
      (∀ c ∈ chunks, GoodChunk c) → GoodChunk current →
      y = chunkStartY + heightsSum current →
      (∀ c ∈ (chunkLoop rest chunks current y).1, GoodChunk c) ∧
        GoodChunk (chunkLoop rest chunks current y).2 := by
  induction rest with
  | nil =>
    intro chunks current y hchunks hcur _
    exact ⟨hchunks, hcur⟩
  | cons row rest ih =>
    intro chunks current y hchunks hcur hy
    unfold chunkLoop
    split
    · rename_i hcond
      apply ih
      · intro c hc
        rcases List.mem_append.mp hc with h | h
        · exact hchunks c h
        · rw [List.mem_singleton.mp h]
          exact hcur
      · left
        simp
      · simp [heightsSum]
    · rename_i hcond
      apply ih
      · exact hchunks
      · rcases Classical.not_and_iff_or_not_not.mp hcond with h | h
        · right
          rw [heightsSum_concat]
          omega
        · have hnil : current = [] := Classical.not_not.mp h
          subst hnil
          left
          simp
      · rw [heightsSum_concat]
        omega

/-- Flushing never yields an empty chunk list. -/
theorem chunkFlush_ne_nil (chunks : List (List TableRow))
    (current : List TableRow) : chunkFlush chunks current ≠ [] := by
  unfold chunkFlush
  by_cases hc : current = []
  · simp only [hc, ne_eq, not_true_eq_false, if_false]
    by_cases hk : chunks = [] <;> simp [hk]
  · simp [hc]

/-- Flushing appends the pending rows: the flattened result is the
flattened chunks followed by the pending chunk. -/
theorem chunkFlush_join (chunks : List (List TableRow))
    (current : List TableRow) :
    (chunkFlush chunks current).join = chunks.join ++ current := by
  unfold chunkFlush
  by_cases hc : current = []
  · simp only [hc, ne_eq, not_true_eq_false, if_false]
    by_cases hk : chunks = [] <;> simp [hk]
  · simp [hc]

/-- Flushing preserves chunk goodness. -/
theorem chunkFlush_good (chunks : List (List TableRow))
    (current : List TableRow) (hchunks : ∀ c ∈ chunks, GoodChunk c)
    (hcur : GoodChunk current) :
    ∀ c ∈ chunkFlush chunks current, GoodChunk c := by
  intro c hc
  unfold chunkFlush at hc
  by_cases hcn : current = []
  · simp only [hcn, ne_eq, not_true_eq_false, if_false] at hc
    by_cases hk : chunks = []
    · simp [hk] at hc
      rw [hc]
      left
      simp
    · simp [hk] at hc
      exact hchunks c hc
  · simp [hcn] at hc
    rcases hc with h | h
    · exact hchunks c h
    · rw [h]
      exact hcur

/-- C5: `chunkRows` always returns at least one chunk, an empty row list
yields exactly one empty chunk, every input row appears in exactly one
chunk with order preserved (the chunks flatten back to the input), and
every chunk holding two or more rows fits the printable area: its
heights, starting at the top margin plus header height (156), stay
within the page height minus the bottom margin (1003). -/
theorem chunkRows_chunking_spec (rows : List TableRow) :
    chunkRows rows ≠ [] ∧
    (chunkRows rows).join = rows ∧
    chunkRows ([] : List TableRow) = [[]] ∧
    (∀ c ∈ chunkRows rows, 2 ≤ c.length →
      chunkStartY + heightsSum c ≤ chunkPageEnd) := by
  have hjoin := chunkLoop_join rows [] [] chunkStartY
  simp only [List.join_nil, List.nil_append] at hjoin
  have hgood := chunkLoop_good rows [] [] chunkStartY (by simp)
    (by left; simp) (by simp [heightsSum])
  refine ⟨chunkFlush_ne_nil _ _, ?_, by decide, ?_⟩
  · show (chunkFlush (chunkLoop rows [] [] chunkStartY).1
      (chunkLoop rows [] [] chunkStartY).2).join = rows
    rw [chunkFlush_join]
    exact hjoin
  · intro c hc hlen
    have hc' : c ∈ chunkFlush (chunkLoop rows [] [] chunkStartY).1
        (chunkLoop rows [] [] chunkStartY).2 := hc
    have hcg := chunkFlush_good _ _ hgood.1 hgood.2 c hc'
    rcases hcg with h | h
    · omega
    · exact h

/-- Witness for C5 at a concrete two-row list (its single chunk holds
two rows and fits the printable area). -/
theorem chunkRows_chunking_spec_witness :
    chunkStartY + heightsSum [exRow, exRow] ≤ chunkPageEnd :=
  (chunkRows_chunking_spec [exRow, exRow]).2.2.2 [exRow, exRow]
    (by decide) (by decide)

/-! ## Totals-row lemmas (C6) -/

/-- The cell rects of a data row carry no totals label (they are rects). -/
theorem rowRects_no_totals (ws : List Nat) :
    ∀ (x y h : Nat), (rowRects ws x y h).any isTotalsLabel = false := by
  induction ws with
  | nil => intro x y h; simp [rowRects]
  | cons w ws ih =>
    intro x y h
    simp [rowRects, isTotalsLabel, makeRect, ih]

/-- No object of a data row is the totals label (rects and textboxes
only). -/
theorem rowObjects_no_totals (row : TableRow) (y : Nat) :
    (rowObjects row y).any isTotalsLabel = false := by
  simp [rowObjects, List.any_append, rowRects_no_totals, isTotalsLabel,
    makeCellText]

/-- No object of the data-row loop is the totals label. -/
theorem rowsLoop_no_totals (rows : List TableRow) :
    ∀ y : Nat, (rowsLoop rows y).any isTotalsLabel = false := by
  induction rows with
  | nil => intro y; simp [rowsLoop]
  | cons row rest ih =>
    intro y
    simp [rowsLoop, List.any_append, rowObjects_no_totals, ih]

/-- The header row carries no totals label (its texts are the column
titles, none equal to `Total:`). -/
theorem headerObjects_no_totals : headerObjects.any isTotalsLabel = false := by
  decide

/-- The totals-row objects do carry the totals label. -/
theorem totalObjects_have_totals (grandTotal : Option String) (y : Nat) :
    (totalObjects grandTotal y).any isTotalsLabel = true := by
  simp [totalObjects, isTotalsLabel, makeRect, makeHeaderText, makeCellText]

/-- A built page contains the totals row exactly when `includeTotal` was
passed. -/
theorem hasTotalsRow_buildPageJson (rows : List TableRow)
    (grandTotal : Option String) (includeTotal : Bool) :
    hasTotalsRow (buildPageJson rows grandTotal includeTotal) = includeTotal := by
  cases includeTotal <;>
    simp [hasTotalsRow, buildPageJson, List.any_append, headerObjects_no_totals,
      rowsLoop_no_totals, totalObjects_have_totals]

/-- The page loop produces one page per chunk. -/
theorem createBomPagesLoop_length (grandTotal : Option String) (total : Nat) :
    ∀ (chunks : List (List TableRow)) (j : Nat),
      (createBomPagesLoop grandTotal total chunks j).length = chunks.length := by
  intro chunks
  induction chunks with
  | nil => intro j; simp [createBomPagesLoop]
  | cons c rest ih =>
    intro j
    simp [createBomPagesLoop, ih]

/-- The page at position `i` of the page loop is built from the chunk at
position `i`, with the totals flag set exactly on the final chunk. -/
theorem createBomPagesLoop_get (grandTotal : Option String) (total : Nat) :
    ∀ (chunks : List (List TableRow)) (i j : Nat),
      (createBomPagesLoop grandTotal total chunks j).get? i =
        (chunks.get? i).map (fun chunk =>
          { name := "BOM " ++ toString (j + i + 1)
            fabricJSON := buildPageJson chunk grandTotal
              (decide (j + i = total - 1)) }) := by
  intro chunks
  induction chunks with
  | nil => intro i j; simp [createBomPagesLoop]
  | cons c rest ih =>
    intro i j
    cases i with
    | zero => simp [createBomPagesLoop]
    | succ i =>
      have harith : j + 1 + i = j + (i + 1) := by omega
      simp only [createBomPagesLoop, List.get?_cons_succ, ih i (j + 1), harith]

/-! ## C6 — one page per chunk, totals only on the final page -/

/-- C6: `createBomPages` returns exactly one page per chunk of
`chunkRows`, the page at position `i` having its `fabricJSON` built by
`buildPageJson` from chunk `i` (totals flag exactly on the final chunk),
and the totals row appears in a page's `fabricJSON` iff that page is the
one built from the final chunk. -/
theorem createBomPages_one_page_per_chunk (data : TableData) :
    (createBomPages data).length = (chunkRows data.rows).length ∧
    (∀ i : Nat, (createBomPages data).get? i =
      ((chunkRows data.rows).get? i).map (fun chunk =>
        { name := "BOM " ++ toString (i + 1)
          fabricJSON := buildPageJson chunk data.grandTotal
            (decide (i = (chunkRows data.rows).length - 1)) })) ∧
    (∀ (i : Nat) (page : BomPage), (createBomPages data).get? i = some page →
      (hasTotalsRow page.fabricJSON = true ↔
        i = (chunkRows data.rows).length - 1)) := by
  have hget : ∀ i : Nat, (createBomPages data).get? i =
      ((chunkRows data.rows).get? i).map (fun chunk =>
        { name := "BOM " ++ toString (i + 1)
          fabricJSON := buildPageJson chunk data.grandTotal
            (decide (i = (chunkRows data.rows).length - 1)) }) := by
    intro i
    unfold createBomPages
    rw [createBomPagesLoop_get]
    simp only [Nat.zero_add]
  refine ⟨?_, hget, ?_⟩
  · unfold createBomPages
    rw [createBomPagesLoop_length]
  · intro i page hpage
    rw [hget i] at hpage
    cases hchunk : (chunkRows data.rows).get? i with
    | none => rw [hchunk] at hpage; simp at hpage
    | some chunk =>
      rw [hchunk, Option.map_some'] at hpage
      injection hpage with hpage
      rw [← hpage]
      simp [hasTotalsRow_buildPageJson]

/-- Witness for C6 on empty table data (one page, which is final and
carries the totals row). -/
theorem createBomPages_one_page_per_chunk_witness :
    hasTotalsRow bomPage0.fabricJSON = true ↔
      (0 : Nat) = (chunkRows ([] : List TableRow)).length - 1 :=
  (createBomPages_one_page_per_chunk { rows := [], grandTotal := none }).2.2
    0 bomPage0 (by decide)

/-! ## C7 — the 42-character wrap bound -/

/-- C7 (counterexample): a single word longer than 42 characters is
emitted as one over-long line, so the claim that every wrapped line has
at most 42 characters fails. -/
theorem wrapTextByChars_long_word_exceeds :
    ¬ (∀ text : String, ∀ l ∈ wrapTextByChars text 42, l.length ≤ 42) := by
  intro h
  have hmem : longWord ∈ wrapTextByChars longWord 42 := by decide
  have := h longWord longWord hmem
  have hlen : longWord.length = 43 := by decide
  omega

/-- The word-packing fold keeps every emitted line and the pending line
within the character limit, provided every remaining word fits it. -/
theorem wrapFold_bounded (m : Nat) (ws : List String) :
    ∀ acc : List String × String,
      (∀ w ∈ ws, w.length ≤ m) → (∀ l ∈ acc.1, l.length ≤ m) →
      acc.2.length ≤ m →
      (∀ l ∈ (ws.foldl (wrapStep m) acc).1, l.length ≤ m) ∧
        (ws.foldl (wrapStep m) acc).2.length ≤ m := by
  induction ws with
  | nil =>
    intro acc _ h2 h3
    exact ⟨h2, h3⟩
  | cons w ws ih =>
    intro acc hws h2 h3
    rw [List.foldl_cons]
    have hstep : (∀ l ∈ (wrapStep m acc w).1, l.length ≤ m) ∧
        (wrapStep m acc w).2.length ≤ m := by
      unfold wrapStep
      split
      · refine ⟨?_, hws w (by simp)⟩
        intro l hl
        rcases List.mem_append.mp hl with h | h
        · exact h2 l h
        · rw [List.mem_singleton.mp h]
          exact h3
      · rename_i hc
        refine ⟨h2, ?_⟩
        show (acc.2 ++ " " ++ w).length ≤ m
        omega
    exact ih _ (fun w' hw' => hws w' (by simp [hw'])) hstep.1 hstep.2

/-- C7 (amended): the greedy BOM description wrap produces lines of at
most 42 characters whenever every whitespace-separated word of the
description is itself at most 42 characters long; a longer word becomes
a single line exceeding the limit. -/
theorem wrapTextByChars_bounded_lines (text : String)
    (hwords : ∀ w ∈ splitWords text, w.length ≤ 42) :
    ∀ l ∈ wrapTextByChars text 42, l.length ≤ 42 := by
  unfold wrapTextByChars
  cases hw : splitWords text with
  | nil =>
    simp
  | cons w ws =>
    rw [hw] at hwords
    have h0 : w.length ≤ 42 := hwords w (by simp)
    obtain ⟨ha, hb⟩ := wrapFold_bounded 42 ws ([], w)
      (fun w' hw' => hwords w' (by simp [hw'])) (by simp) h0
    intro l hl
    rcases List.mem_append.mp hl with h | h
    · exact ha l h
    · rw [List.mem_singleton.mp h]
      exact hb

/-- Witness for C7's amended theorem on a two-word description. -/
theorem wrapTextByChars_bounded_lines_witness :
    ("hello world" : String).length ≤ 42 ∧
    wrapTextByChars "hello world" 42 = ["hello world"] :=
  ⟨wrapTextByChars_bounded_lines "hello world" (by decide) "hello world"
      (by decide),
   by decide⟩

/-! ## Overlay lemmas (C8) -/

/-- A nonempty rotated text node's overlay entry: emitted with
`renderingMode` `invisible` and no `maxWidth`. -/
theorem overlayOf_rotated (n : ExportTextNode) (htext : ¬ jsTrim n.text = "")
    (hrot : |normalizeAngle n.angle| > (1 / 100 : ℚ)) :
    overlayOf n = some
      { text := n.text, x := n.x, y := n.y, maxWidth := none
        angle := normalizeAngle n.angle
        align := if n.textAlign = "center" ∨ n.textAlign = "right" then
          n.textAlign else "left"
        fontSize := n.fontSize * |n.objScaleY|
        renderingMode := "invisible" } := by
  have hle : ¬ (|normalizeAngle n.angle| ≤ (1 / 100 : ℚ)) := not_le.mpr hrot
  simp [overlayOf, htext, hrot, hle, -one_div]

/-- A nonempty unrotated text node's overlay entry: emitted with
`renderingMode` `fill`, carrying `maxWidth` exactly for textboxes. -/
theorem overlayOf_unrotated (n : ExportTextNode) (htext : ¬ jsTrim n.text = "")
    (hrot : ¬ |normalizeAngle n.angle| > (1 / 100 : ℚ)) :
    overlayOf n = some
      { text := n.text, x := n.x, y := n.y
        maxWidth := if n.type = "textbox" then some n.scaledWidth else none
        angle := normalizeAngle n.angle
        align := if n.textAlign = "center" ∨ n.textAlign = "right" then
          n.textAlign else "left"
        fontSize := n.fontSize * |n.objScaleY|
        renderingMode := "fill" } := by
  have hle : |normalizeAngle n.angle| ≤ (1 / 100 : ℚ) := not_lt.mp hrot
  simp [overlayOf, htext, hrot, hle, -one_div]

/-! ## C8 — rotated vs unrotated text in the PDF export -/

/-- C8 (counterexample): the claim that a rotated text node has no
vector overlay text emitted for it is false: a 30°-rotated node with
nonempty text produces an overlay entry (rendered invisibly for
selectability) in the `textOverlays` list — though it is indeed kept out
of the raster-hiding list. -/
theorem rotated_text_overlay_is_emitted :
    normalizeAngle rotNode.angle ≠ 0 ∧
    overlayOf rotNode ≠ none ∧
    (buildTextOverlays [rotNode]).length = 1 ∧
    hiddenForRaster [rotNode] = [] := by
  have hang : normalizeAngle rotNode.angle = 30 := by
    norm_num [rotNode, normalizeAngle, jsMod, jsTrunc]
  have htext : ¬ jsTrim rotNode.text = "" := by decide
  have hrot : |normalizeAngle rotNode.angle| > (1 / 100 : ℚ) := by
    rw [hang]
    norm_num
  refine ⟨by rw [hang]; norm_num, ?_, ?_, ?_⟩
  · rw [overlayOf_rotated rotNode htext hrot]
    simp
  · simp [buildTextOverlays, overlayOf_rotated rotNode htext hrot]
  · simp [hiddenForRaster, hrot, -one_div]

/-- C8 (amended): in the export overlay pass, a nonempty text node whose
normalized angle exceeds the 0.01° threshold stays out of the
raster-hiding list (it remains visible in the rasterized page) and its
overlay entry is emitted with the `invisible` rendering mode, while a
node within the threshold is hidden from the raster pass and emitted as
visible (`fill`) vector text whose emitted coordinates are its anchor
scaled by `595 / pageWidthPx` and `842 / pageHeightPx`. -/
theorem export_overlay_rotation_split (nodes : List ExportTextNode)
    (n : ExportTextNode) (hmem : n ∈ nodes) (htext : ¬ jsTrim n.text = "") :
    (|normalizeAngle n.angle| > (1 / 100 : ℚ) →
      n ∉ hiddenForRaster nodes ∧
      ∃ ov, overlayOf n = some ov ∧ ov.renderingMode = "invisible" ∧
        ov ∈ buildTextOverlays nodes) ∧
    (¬ |normalizeAngle n.angle| > (1 / 100 : ℚ) →
      n ∈ hiddenForRaster nodes ∧
      ∃ ov, overlayOf n = some ov ∧ ov.renderingMode = "fill" ∧
        ov ∈ buildTextOverlays nodes ∧
        (emitOverlay ov).x = n.x * (PDF_PAGE_WIDTH / A4_PX_WIDTH) ∧
        (emitOverlay ov).y = n.y * (PDF_PAGE_HEIGHT / A4_PX_HEIGHT)) := by
  constructor
  · intro hrot
    constructor
    · intro hin
      rw [hiddenForRaster, List.mem_filter] at hin
      have := hin.2
      simp [htext, hrot, -one_div] at this
    · refine ⟨_, overlayOf_rotated n htext hrot, rfl, ?_⟩
      exact List.mem_filterMap.mpr ⟨n, hmem, overlayOf_rotated n htext hrot⟩
  · intro hrot
    constructor
    · rw [hiddenForRaster, List.mem_filter]
      exact ⟨hmem, by simp [htext, hrot, -one_div]⟩
    · refine ⟨_, overlayOf_unrotated n htext hrot, rfl, ?_, ?_, ?_⟩
      · exact List.mem_filterMap.mpr ⟨n, hmem, overlayOf_unrotated n htext hrot⟩
      · rfl
      · rfl

/-- Witness for C8's amended theorem: the unrotated sibling node is
hidden from the raster pass. -/
theorem export_overlay_rotation_split_witness :
    plainNode ∈ hiddenForRaster [rotNode, plainNode] :=
  ((export_overlay_rotation_split [rotNode, plainNode] plainNode
    (by simp) (by decide)).2
      (by norm_num [plainNode, normalizeAngle, jsMod, jsTrunc])).1

/-! ## C9 — crop guards -/

/-- `a || 0` on a number is the number itself. -/
theorem jsOr_zero (a : ℚ) : jsOr a 0 = a := by
  unfold jsOr
  split
  · rename_i h
    rw [h]
  · rfl

/-- C9 (counterexample): the claim that the crop math refuses any image
with non-zero rotation is false: at 0.005° — non-zero but within the
0.01 threshold — the crop proceeds and mutates the image's width. -/
theorem small_rotation_crop_still_mutates :
    exImg.angle ≠ 0 ∧
    (applyImageCropFromPointer exImg 50 0 CropSide.right).1.width = 50 ∧
    exImg.width = 100 := by
  have habs : |(1 : ℚ) / 200| = 1 / 200 := abs_of_pos (by norm_num)
  have hc : ¬ ((1 : ℚ) / 100 < |(1 : ℚ) / 200|) := by
    rw [habs]
    norm_num
  refine ⟨by norm_num [exImg], ?_, rfl⟩
  norm_num [applyImageCropFromPointer, exImg, ensureImageCropSourceSize, jsOr,
    clampQ, MIN_IMAGE_CROP_SIZE, min_def, max_def, hc]

/-- C9 (amended): `applyImageCropFromPointer` returns without any
mutation when the image's rotation exceeds the 0.01° threshold, and when
the computed crop source width or height is zero it returns `false`
without mutating the crop origin, visible size, or position (only the
`data` source-size cache is refreshed). -/
theorem applyImageCropFromPointer_guard_behavior (image : CropImage)
    (px py : ℚ) (side : CropSide) :
    (|image.angle| > (1 / 100 : ℚ) →
      applyImageCropFromPointer image px py side = (image, false)) ∧
    ((ensureImageCropSourceSize image).2.1 = 0 ∨
        (ensureImageCropSourceSize image).2.2 = 0 →
      (applyImageCropFromPointer image px py side).2 = false ∧
      (applyImageCropFromPointer image px py side).1.cropX = image.cropX ∧
      (applyImageCropFromPointer image px py side).1.cropY = image.cropY ∧
      (applyImageCropFromPointer image px py side).1.width = image.width ∧
      (applyImageCropFromPointer image px py side).1.height = image.height ∧
      (applyImageCropFromPointer image px py side).1.left = image.left ∧
      (applyImageCropFromPointer image px py side).1.top = image.top) := by
  constructor
  · intro hrot
    unfold applyImageCropFromPointer
    rw [jsOr_zero, if_pos hrot]
  · intro hzero
    by_cases hrot : |image.angle| > (1 / 100 : ℚ)
    · unfold applyImageCropFromPointer
      rw [jsOr_zero, if_pos hrot]
      exact ⟨rfl, rfl, rfl, rfl, rfl, rfl, rfl⟩
    · unfold applyImageCropFromPointer
      rw [jsOr_zero, if_neg hrot]
      simp only [if_pos hzero]
      simp [ensureImageCropSourceSize]

/-- Witness for C9's amended theorem on a zero-source image. -/
theorem applyImageCropFromPointer_guard_behavior_witness :
    (applyImageCropFromPointer zeroImg 50 60 CropSide.right).2 = false ∧
    (applyImageCropFromPointer zeroImg 50 60 CropSide.right).1.width
      = zeroImg.width :=
  have h := (applyImageCropFromPointer_guard_behavior zeroImg 50 60
    CropSide.right).2
    (Or.inl (by norm_num [ensureImageCropSourceSize, zeroImg, jsOr]))
  ⟨h.1, h.2.2.2.1⟩

end Closet
